import Mathlib

set_option autoImplicit false

/-
Verification of the caching and retrieval layer of the github-metrics
repository, embedded shallowly in Lean.

Modelling conventions:
  - Instants are naturals, milliseconds since the epoch, as in JS Date
    arithmetic; UTC day boundaries fall every 86400000 ms (JS time has no
    leap seconds).
  - The durable store's expiry check compares TEXT values byte-wise; see
    the derivation at isLive, which embeds that comparison, not an
    idealized instant comparison.
  - JSON-serializable values are an abstract type V; JSON.stringify followed
    by JSON.parse is the identity at this abstraction, and the possibility
    that a stored string fails to parse is modelled by the parseOk flag of a
    row.
  - Promise results are Except Unit: Except.error models a rejected promise.
  - The variously-shaped string cache keys are modelled as tuples of their
    components (the string formats in the source are injective in the
    components).
-/

namespace GithubMetrics

/-- One row of a dataset table of the durable store; mirrors the schema in
src/cache.ts (key TEXT PRIMARY KEY, value TEXT, created_at, expires_at
nullable).  parseOk records whether JSON.parse of the stored text succeeds. -/
structure CacheRow (V : Type) where
  value : V
  parseOk : Bool
  createdAt : Nat
  expiresAt : Option Nat
deriving DecidableEq

/-- The durable store of one dataset table, together with fault injection for
the storage engine: getError k (resp. setError k) says the engine reports an
error on a get (resp. set) of key k. -/
structure SQLiteStore (K V : Type) where
  rows : K → Option (CacheRow V)
  getError : K → Bool
  setError : K → Bool

/-- Whether a row is selected by the WHERE clause of SQLiteCache.get:
expires_at IS NULL OR expires_at > datetime('now') (src/cache.ts lines
97-100).  The comparison is between TEXT values: set stores expires_at as
new Date(...).toISOString() (line 128), the text
"YYYY-MM-DDTHH:MM:SS.sssZ", while datetime('now') yields
"YYYY-MM-DD HH:MM:SS", both UTC; the column's declared type DATETIME has
NUMERIC affinity and neither text converts to a number, so both operands
stay TEXT and SQLite compares them byte-wise under BINARY collation.  The
zero-padded date prefixes compare lexicographically exactly like the dates
themselves; when the two UTC dates are equal the eleventh byte decides, and
'T' (0x54) > ' ' (0x20) makes the stored text the greater one regardless of
what remains.  Hence the row is served iff the UTC date of expiresAt is at
least the UTC date of now: expiry takes effect only when the UTC date rolls
past expiresAt's date, not at the instant itself. -/
def isLive (expiresAt : Option Nat) (now : Nat) : Bool :=
  match expiresAt with
  | none => true
  | some t => decide (now / 86400000 ≤ t / 86400000)

/-- SQLiteCache.get (src/cache.ts lines 95-122): on a storage engine error the
promise is rejected (after logging); an expired or absent row resolves
undefined; a row whose stored text fails JSON.parse resolves undefined. -/
def SQLiteCache.get {K V : Type} (s : SQLiteStore K V) (now : Nat) (k : K) :
    Except Unit (Option V) :=
  if s.getError k then Except.error ()
  else
    match s.rows k with
    | some r =>
        if isLive r.expiresAt now then
          if r.parseOk then Except.ok (some r.value) else Except.ok none
        else Except.ok none
    | none => Except.ok none

/-- The expiration instant computed by SQLiteCache.set (src/cache.ts lines
127-129): ttlSeconds falsy (absent or zero) gives null, otherwise
Date.now() + ttlSeconds * 1000. -/
def expiresAtOf (now : Nat) (ttlSeconds : Option Nat) : Option Nat :=
  match ttlSeconds with
  | some t => if t = 0 then none else some (now + t * 1000)
  | none => none

/-- SQLiteCache.set (src/cache.ts lines 124-145): INSERT OR REPLACE of
(key, value, datetime now, expiresAt); a storage engine error rejects. -/
def SQLiteCache.set {K V : Type} [DecidableEq K] (s : SQLiteStore K V)
    (now : Nat) (k : K) (v : V) (ttlSeconds : Option Nat) :
    Except Unit (SQLiteStore K V) :=
  if s.setError k then Except.error ()
  else
    Except.ok
      { s with
        rows := fun k' =>
          if k' = k then some ⟨v, true, now, expiresAtOf now ttlSeconds⟩
          else s.rows k' }

/-- A time interval; the source's DateInterval carries ISO-8601 strings,
modelled by the instants they denote. -/
structure DateInterval where
  since : Nat
  «until» : Nat
deriving DecidableEq

/-- getDateIntervals (src/utils.ts lines 6-26): slice the span from startDate
to endDate into chunks of intervalInDays days (a day is 86400000 ms), the last
chunk clamped to endDate.  The source loops forever for a non-positive
intervalInDays, so the embedding takes it positive. -/
def getDateIntervals (startDate endDate : Nat) (intervalInDays : ℕ+) :
    List DateInterval :=
  if h : startDate < endDate then
    { since := startDate,
      «until» := min (startDate + (intervalInDays : Nat) * 86400000) endDate } ::
      getDateIntervals (startDate + (intervalInDays : Nat) * 86400000) endDate
        intervalInDays
  else []
termination_by endDate - startDate
decreasing_by
  have h1 : 0 < (intervalInDays : Nat) * 86400000 :=
    Nat.mul_pos intervalInDays.pos (by norm_num)
  omega

/-- DAYS_IN_INTERVAL (src/constants.ts). -/
def DAYS_IN_INTERVAL : ℕ+ := 5

/-- sleep (src/utils.ts lines 72-80), modelled by the total time slept: a
duration below 60000 ms is awaited directly; otherwise 60000 ms is awaited and
the function recurses on the remainder. -/
def sleep (milliseconds : Nat) : Nat :=
  if milliseconds < 60000 then milliseconds
  else 60000 + sleep (milliseconds - 60000)
termination_by milliseconds
decreasing_by omega

/-- The number of invocations of sleep (src/utils.ts lines 72-80) reached from
a given argument, counting the initial call. -/
def sleepSteps (milliseconds : Nat) : Nat :=
  if milliseconds < 60000 then 1
  else 1 + sleepSteps (milliseconds - 60000)
termination_by milliseconds
decreasing_by omega

/-- The dataset categories taken by getSmartCacheTTL (src/index.ts line 69). -/
inductive DataType where
  | prs
  | issues
  | reviews
  | events
deriving DecidableEq

/-- CACHE_CONFIG (src/constants.ts lines 187-203), seconds fields. -/
structure CacheConfig where
  HISTORICAL_TTL_SECONDS : Nat
  RECENT_TTL_SECONDS : Nat
  REVIEWS_TTL_SECONDS : Nat
  TODAY_TTL_SECONDS : Nat

def CACHE_CONFIG : CacheConfig :=
  { HISTORICAL_TTL_SECONDS := 0
    RECENT_TTL_SECONDS := 6 * 60 * 60
    REVIEWS_TTL_SECONDS := 0
    TODAY_TTL_SECONDS := 3 * 60 * 60 }

/-- daysAgo as computed by getSmartCacheTTL (src/index.ts line 72):
Math.floor((now - until) / (1000*60*60*24)); Math.floor on the real quotient
of integers is flooring division. -/
def daysAgoOf (untilDate now : Nat) : Int :=
  ((now : Int) - (untilDate : Int)).fdiv 86400000

/-- getSmartCacheTTL (src/index.ts lines 69-95); the source reads Date.now()
internally, passed here as now. -/
def getSmartCacheTTL (dateRange : DateInterval) (dataType : DataType)
    (now : Nat) : Nat :=
  let daysAgo := daysAgoOf dateRange.«until» now
  if dataType = DataType.reviews ∨ dataType = DataType.events then
    CACHE_CONFIG.REVIEWS_TTL_SECONDS
  else if 7 < daysAgo then CACHE_CONFIG.HISTORICAL_TTL_SECONDS
  else if 0 < daysAgo then CACHE_CONFIG.RECENT_TTL_SECONDS
  else CACHE_CONFIG.TODAY_TTL_SECONDS

/-- The legacy compatibility wrapper (src/cache.ts lines 209-262): a
synchronous in-memory mirror in front of the durable store.  Its
loadFromDatabase is an empty stub, so a fresh process starts with an empty
memoryCache whatever the durable store holds. -/
structure CompatibilityCache (K V : Type) where
  memoryCache : K → Option V
  sqliteCache : SQLiteStore K V

/-- CompatibilityCache.get (src/cache.ts lines 224-227): reads only the
in-memory mirror, never the durable store. -/
def CompatibilityCache.get {K V : Type} (c : CompatibilityCache K V) (k : K) :
    Option V :=
  c.memoryCache k

/-- CompatibilityCache.set (src/cache.ts lines 229-237): updates the mirror,
then asynchronously writes the durable store with no TTL; a durable write
error is caught and logged, leaving the durable store unchanged. -/
def CompatibilityCache.set {K V : Type} [DecidableEq K]
    (c : CompatibilityCache K V) (now : Nat) (k : K) (v : V) :
    CompatibilityCache K V :=
  { memoryCache := fun k' => if k' = k then some v else c.memoryCache k'
    sqliteCache :=
      match SQLiteCache.set c.sqliteCache now k v none with
      | Except.ok s' => s'
      | Except.error _ => c.sqliteCache }

/-- CompatibilityCache.getAsync (src/cache.ts lines 239-241): delegates to the
durable store. -/
def CompatibilityCache.getAsync {K V : Type} (c : CompatibilityCache K V)
    (now : Nat) (k : K) : Except Unit (Option V) :=
  SQLiteCache.get c.sqliteCache now k

/-- CompatibilityCache.setAsync (src/cache.ts lines 243-246): updates the
mirror, then awaits the durable write, whose rejection propagates. -/
def CompatibilityCache.setAsync {K V : Type} [DecidableEq K]
    (c : CompatibilityCache K V) (now : Nat) (k : K) (v : V)
    (ttlSeconds : Option Nat) : Except Unit (CompatibilityCache K V) :=
  match SQLiteCache.set c.sqliteCache now k v ttlSeconds with
  | Except.ok s' =>
      Except.ok
        { memoryCache := fun k' => if k' = k then some v else c.memoryCache k'
          sqliteCache := s' }
  | Except.error e => Except.error e

/-- A commit record (src/types.ts GraphQLCommit), restricted to the fields the
verified logic reads; the author fields are not needed by the claims. -/
structure GraphQLCommit where
  oid : String
  additions : Nat
  deletions : Nat
deriving DecidableEq

/-- The cache key of fetchCommits (src/commits.ts line 55):
repoOwner-repository-since-until. -/
abbrev CommitsKey : Type := String × String × Nat × Nat

/-- fetchCommits (src/commits.ts lines 47-114).  The network is the list of
pages the paginated GraphQL query would return on this unit, in order; the
loop issues one request per page (hasNextPage is true before every page but
the last), so a completed loop makes pages.length calls and pages is nonempty
on any trace that reaches the loop.  Rate-limited responses are retried
transparently by the source (sleep then continue) and are not counted here;
the defaultBranchRef-null early return and the thrown GraphQL errors are
outside the claims and omitted.  Note the source declares theseDatesCommits,
never adds to it, appends it to allCommits, and writes it — not allCommits —
to the cache (lines 63, 111-112).  Result: (returned commits, network
requests, cache afterwards). -/
def fetchCommits (cache : CompatibilityCache CommitsKey (List GraphQLCommit))
    (now : Nat) (pages : List (List GraphQLCommit))
    (repoOwner repository : String) (since untilDate : Nat) :
    List GraphQLCommit × Nat × CompatibilityCache CommitsKey (List GraphQLCommit) :=
  let cacheKey : CommitsKey := (repoOwner, repository, since, untilDate)
  match CompatibilityCache.get cache cacheKey with
  | some cachedResult => (cachedResult, 0, cache)
  | none =>
      let allCommits := pages.flatten
      let theseDatesCommits : List GraphQLCommit := []
      (allCommits ++ theseDatesCommits, pages.length,
        CompatibilityCache.set cache now cacheKey theseDatesCommits)

/-- A pull-request search item (src/types.ts RestIssueAndPullRequest),
restricted to the fields the verified logic reads: user?.login, the repository
name (tail of repository_url), and number. -/
structure RestIssueAndPullRequest where
  authorLogin : Option String
  repoName : String
  number : Nat
deriving DecidableEq

/-- The cache key of fetchPullRequestsInDateRange (src/index.ts line 141):
repoOwner-prs-since-until. -/
abbrev PrsKey : Type := String × Nat × Nat

/-- The outcome of checkRateLimit (src/index.ts lines 98-117) as the
orchestrator consumes it: allowed (including the fail-open path on a failed
quota check), blocked with a known reset time, or blocked without one. -/
inductive RateStatus where
  | allowed
  | blockedKnown
  | blockedUnknown

/-- The network path of one interval of fetchPullRequestsInDateRange
(src/index.ts lines 155-211), entered after the cache check: the offline-mode
skip, the rate-limit gate (one network call to the quota endpoint; a known
reset time is waited out and the fetch proceeds, an unknown one skips the
interval), the pagination loop (one call per page; per-page errors retry or
break the loop and are abstracted as the successful trace net), and the
conditional cache write with the policy TTL.  Result: (records contributed,
network calls, store afterwards). -/
def prsInterval (offlineMode : Bool) (now : Nat)
    (gate : DateInterval → RateStatus)
    (net : DateInterval → List (List RestIssueAndPullRequest))
    (repoOwner : String) (iv : DateInterval)
    (s : SQLiteStore PrsKey (List RestIssueAndPullRequest)) :
    Except Unit
      (List RestIssueAndPullRequest × Nat ×
        SQLiteStore PrsKey (List RestIssueAndPullRequest)) :=
  if offlineMode then Except.ok ([], 0, s)
  else
    match gate iv with
    | RateStatus.blockedUnknown => Except.ok ([], 1, s)
    | _ =>
        let intervalPRs := (net iv).flatten
        let write :=
          if 0 < intervalPRs.length then
            SQLiteCache.set s now (repoOwner, iv.since, iv.«until») intervalPRs
              (some (getSmartCacheTTL iv DataType.prs now))
          else Except.ok s
        match write with
        | Except.ok s' => Except.ok (intervalPRs, 1 + (net iv).length, s')
        | Except.error e => Except.error e

/-- The interval loop of fetchPullRequestsInDateRange (src/index.ts lines
140-212): per interval, an unguarded await of the durable read (skipped
entirely in force-refresh mode), the nonempty-cache-hit fast path, then
prsInterval; results are concatenated and a rejected durable read or write
propagates out of the whole loop. -/
def prsGo (forceRefresh offlineMode : Bool) (now : Nat)
    (gate : DateInterval → RateStatus)
    (net : DateInterval → List (List RestIssueAndPullRequest))
    (repoOwner : String) :
    List DateInterval → SQLiteStore PrsKey (List RestIssueAndPullRequest) →
    Except Unit
      (List RestIssueAndPullRequest × Nat ×
        SQLiteStore PrsKey (List RestIssueAndPullRequest))
  | [], s => Except.ok ([], 0, s)
  | iv :: rest, s =>
      (if forceRefresh then Except.ok none
       else SQLiteCache.get s now (repoOwner, iv.since, iv.«until»)).bind
        fun cachedResult =>
          (match cachedResult, forceRefresh with
           | some l, false =>
               if 0 < l.length then Except.ok (l, 0, s)
               else prsInterval offlineMode now gate net repoOwner iv s
           | _, _ => prsInterval offlineMode now gate net repoOwner iv s).bind
            fun out =>
              (prsGo forceRefresh offlineMode now gate net repoOwner rest
                  out.2.2).bind
                fun acc =>
                  Except.ok (out.1 ++ acc.1, out.2.1 + acc.2.1, acc.2.2)

/-- fetchPullRequestsInDateRange (src/index.ts lines 132-215): slice the range
into DAYS_IN_INTERVAL-day intervals and run the interval loop. -/
def fetchPullRequestsInDateRange (forceRefresh offlineMode : Bool) (now : Nat)
    (gate : DateInterval → RateStatus)
    (net : DateInterval → List (List RestIssueAndPullRequest))
    (repoOwner : String) (startDate endDate : Nat)
    (s : SQLiteStore PrsKey (List RestIssueAndPullRequest)) :
    Except Unit
      (List RestIssueAndPullRequest × Nat ×
        SQLiteStore PrsKey (List RestIssueAndPullRequest)) :=
  prsGo forceRefresh offlineMode now gate net repoOwner
    (getDateIntervals startDate endDate DAYS_IN_INTERVAL) s

/-- A pull-request review (src/types.ts GraphQLReview), restricted to the
fields the aggregation reads: author?.login and state. -/
structure GraphQLReview where
  authorLogin : Option String
  state : String
deriving DecidableEq

/-- A review thread (src/types.ts GraphQLReviewThread), restricted to what the
aggregation reads: the author login of its first comment, if any. -/
structure GraphQLReviewThread where
  firstCommentAuthor : Option String
deriving DecidableEq

/-- ReviewsForPullRequest (src/types.ts). -/
structure ReviewsForPullRequest where
  reviews : List GraphQLReview
  reviewThreads : List GraphQLReviewThread
deriving DecidableEq

/-- The cache key of fetchReviewsForPR (src/index.ts line 224):
repoOwner-repoName-prNumber. -/
abbrev ReviewsKey : Type := String × String × Nat

/-- fetchReviewsForPR (src/index.ts lines 217-373): synchronous in-memory
cache check; on a miss in offline mode an empty result is returned with no
network call; otherwise the paginated, retrying GraphQL loop runs (abstracted
as the successful trace net, one network call counted for the unit) and the
result is written through setAsync with the perpetual reviews TTL, whose
rejection propagates.  The retry-exhaustion stale-cache fallback is outside
the claims and omitted. -/
def fetchReviewsForPR (offlineMode : Bool)
    (cache : CompatibilityCache ReviewsKey ReviewsForPullRequest)
    (net : Nat → ReviewsForPullRequest) (now : Nat)
    (repoOwner repoName : String) (prNumber : Nat) :
    Except Unit
      (ReviewsForPullRequest × Nat ×
        CompatibilityCache ReviewsKey ReviewsForPullRequest) :=
  let cacheKey : ReviewsKey := (repoOwner, repoName, prNumber)
  match CompatibilityCache.get cache cacheKey with
  | some cachedResult => Except.ok (cachedResult, 0, cache)
  | none =>
      if offlineMode then Except.ok (⟨[], []⟩, 0, cache)
      else
        let reviewData := net prNumber
        match
          CompatibilityCache.setAsync cache now cacheKey reviewData
            (some CACHE_CONFIG.REVIEWS_TTL_SECONDS) with
        | Except.ok c' => Except.ok (reviewData, 1, c')
        | Except.error e => Except.error e

/-- AggregateMetrics (src/types.ts), the per-user counters of
aggregateMetricsByDateRange. -/
structure AggregateMetrics where
  commits : Nat
  pullRequests : Nat
  reviews : Nat
  rejections : Nat
  score : ℚ
  bugLabels : Nat
  enhancementLabels : Nat
  otherLabels : Nat
deriving DecidableEq

def emptyMetrics : AggregateMetrics := ⟨0, 0, 0, 0, 0, 0, 0, 0⟩

/-- The rawUserMetrics object: a JS record whose absent keys are materialized
with zeroed counters before every update, modelled as a total map with
emptyMetrics default. -/
abbrev MetricsMap : Type := String → AggregateMetrics

def updateUser (m : MetricsMap) (u : String)
    (f : AggregateMetrics → AggregateMetrics) : MetricsMap :=
  fun u' => if u' = u then f (m u) else m u'

/-- The body of reviews.forEach in aggregateMetricsByDateRange (src/index.ts
lines 871-910): the reviewer's review count and score are incremented, every
review thread's first-comment author gains 0.1 score, and — line 889 — a
CHANGES_REQUESTED review increments the rejections of author, the enclosing
pull request's author, not of the reviewer. -/
def processReview (author : String)
    (reviewThreads : List GraphQLReviewThread) (m : MetricsMap)
    (review : GraphQLReview) : MetricsMap :=
  let reviewer := review.authorLogin.getD "Unknown"
  let m1 := updateUser m reviewer fun r => { r with reviews := r.reviews + 1 }
  let m2 :=
    if review.state = "CHANGES_REQUESTED" then
      updateUser m1 author fun r => { r with rejections := r.rejections + 1 }
    else m1
  let m3 := updateUser m2 reviewer fun r => { r with score := r.score + 1 }
  reviewThreads.foldl
    (fun m thread =>
      let threadAuthor := thread.firstCommentAuthor.getD "Unknown"
      updateUser m threadAuthor fun r => { r with score := r.score + 1 / 10 })
    m3

/-- The per-pull-request body of aggregateMetricsByDateRange (src/index.ts
lines 853-911), given the reviews fetched for the PR: the author's
pullRequests counter is incremented and each review is processed. -/
def processPullRequest (m : MetricsMap) (pr : RestIssueAndPullRequest)
    (reviewData : ReviewsForPullRequest) : MetricsMap :=
  let author := pr.authorLogin.getD "Unknown"
  let m1 :=
    updateUser m author fun r => { r with pullRequests := r.pullRequests + 1 }
  reviewData.reviews.foldl (processReview author reviewData.reviewThreads) m1

/-- MigrationResult (src/migrate-cache.ts lines 5-11), without the constant
name fields. -/
structure MigrationResult where
  keysTransferred : Nat
  errors : Nat
  success : Bool
deriving DecidableEq

/-- The per-key loop of migrateSingleFile (src/migrate-cache.ts lines 70-83):
each key is set with no TTL; a per-key store error is caught, counted and the
loop continues.  Result: (keysTransferred, errors, store afterwards). -/
def migrateGo {K V : Type} [DecidableEq K] (now : Nat) :
    List (K × V) → SQLiteStore K V → Nat × Nat × SQLiteStore K V
  | [], s => (0, 0, s)
  | (k, v) :: rest, s =>
      match SQLiteCache.set s now k v none with
      | Except.ok s' =>
          let out := migrateGo now rest s'
          (out.1 + 1, out.2.1, out.2.2)
      | Except.error _ =>
          let out := migrateGo now rest s
          (out.1, out.2.1 + 1, out.2.2)

/-- migrateSingleFile (src/migrate-cache.ts lines 33-104): a missing source
file (file = none) is success with nothing transferred; otherwise every
key-value pair of the legacy flat object is set into the durable store and
success records that no per-key error occurred.  The progress logging and the
.backup copy have no effect on the result or the store. -/
def migrateSingleFile {K V : Type} [DecidableEq K] (now : Nat)
    (file : Option (List (K × V))) (s : SQLiteStore K V) :
    MigrationResult × SQLiteStore K V :=
  match file with
  | none => (⟨0, 0, true⟩, s)
  | some data =>
      let out := migrateGo now data s
      (⟨out.1, out.2.1, out.2.1 == 0⟩, out.2.2)

/-! Concrete stores and caches used to evaluate the embedded code on
explicit inputs. -/

/-- An empty durable store over arbitrary key and value types, with a
fault-free storage engine. -/
def emptyStore (K V : Type) : SQLiteStore K V :=
  ⟨fun _ => none, fun _ => false, fun _ => false⟩

/-- A freshly started commits cache: empty in-memory mirror over an empty
fault-free durable store. -/
def emptyCommitsCache : CompatibilityCache CommitsKey (List GraphQLCommit) :=
  ⟨fun _ => none, emptyStore CommitsKey (List GraphQLCommit)⟩

/-- A freshly started reviews cache. -/
def emptyReviewsCache : CompatibilityCache ReviewsKey ReviewsForPullRequest :=
  ⟨fun _ => none, emptyStore ReviewsKey ReviewsForPullRequest⟩

/-- A commits cache as seen by a process started after a previous run
persisted a perpetual entry for one unit: the durable store holds the entry,
the in-memory mirror is empty (loadFromDatabase loads nothing). -/
def durableOnlyCache : CompatibilityCache CommitsKey (List GraphQLCommit) :=
  ⟨fun _ => none,
   ⟨fun k =>
      if k = ("acme", "widgets", 0, 432000000) then
        some ⟨[⟨"cached", 5, 6⟩], true, 0, none⟩
      else none,
    fun _ => false, fun _ => false⟩⟩

/-- A commits cache whose in-memory mirror holds an entry written during the
current run. -/
def memoryHitCache : CompatibilityCache CommitsKey (List GraphQLCommit) :=
  ⟨fun k =>
      if k = ("acme", "widgets", 0, 432000000) then some [⟨"m", 1, 1⟩]
      else none,
   emptyStore CommitsKey (List GraphQLCommit)⟩

/-- An empty PRs store whose storage engine fails every get. -/
def prsGetErrorStore : SQLiteStore PrsKey (List RestIssueAndPullRequest) :=
  ⟨fun _ => none, fun _ => true, fun _ => false⟩

/-- A store holding, under key 0, a live row whose stored text does not parse
as JSON. -/
def parseFailStore : SQLiteStore Nat Nat :=
  ⟨fun k => if k = 0 then some ⟨7, false, 0, none⟩ else none,
   fun _ => false, fun _ => false⟩

/-- The result of setting key 1 to 42 at instant 0 (1970-01-01T00:00:00Z)
with a 3-hour TTL (ttlSeconds = 10800) on the empty store: the stored
expiresAt is 10800000 ms, i.e. 03:00 the same UTC day. -/
def expiredSameDayStore : SQLiteStore Nat Nat :=
  { emptyStore Nat Nat with
    rows := fun k' =>
      if k' = 1 then some ⟨42, true, 0, expiresAtOf 0 (some 10800)⟩
      else (emptyStore Nat Nat).rows k' }

/-- The result of setting key 1 to 42 at time 1000 with no TTL on the empty
store. -/
def perpetualStore : SQLiteStore Nat Nat :=
  { emptyStore Nat Nat with
    rows := fun k' =>
      if k' = 1 then some ⟨42, true, 1000, expiresAtOf 1000 none⟩
      else (emptyStore Nat Nat).rows k' }

/-! Theorems. -/

/-- C10: the sleep helper terminates for every finite non-negative millisecond
argument: it awaits exactly the requested duration, and the number of
invocations reached from milliseconds is the finite value
milliseconds / 60000 + 1 — each recursive step reduces the remaining duration
by 60000 ms. -/
theorem sleep_spec (milliseconds : Nat) :
    sleep milliseconds = milliseconds ∧
    sleepSteps milliseconds = milliseconds / 60000 + 1 := by
  induction milliseconds using Nat.strong_induction_on with
  | _ ms ih =>
    by_cases h : ms < 60000
    · constructor
      · rw [sleep, if_pos h]
      · rw [sleepSteps, if_pos h]
        omega
    · have hlt : ms - 60000 < ms := by omega
      obtain ⟨ih1, ih2⟩ := ih (ms - 60000) hlt
      constructor
      · rw [sleep, if_neg h, ih1]
        omega
      · rw [sleepSteps, if_neg h, ih2]
        omega

/-- C6: the TTL policy getSmartCacheTTL — a pure function of (interval,
category, now), hence deterministic in them — returns 0 (perpetual) for the
reviews and events categories regardless of the interval; for the
pull-requests and issues categories, with daysAgo = floor((now − until) / 1
day), it returns 0 when daysAgo > 7, the 6-hour TTL (21600 s) when
0 < daysAgo ≤ 7, and the 3-hour TTL (10800 s) when daysAgo = 0. -/
theorem getSmartCacheTTL_spec (dateRange : DateInterval) (now : Nat)
    (dataType : DataType) :
    ((dataType = DataType.reviews ∨ dataType = DataType.events) →
      getSmartCacheTTL dateRange dataType now = 0) ∧
    ((dataType = DataType.prs ∨ dataType = DataType.issues) →
      (7 < daysAgoOf dateRange.«until» now →
        getSmartCacheTTL dateRange dataType now = 0) ∧
      (0 < daysAgoOf dateRange.«until» now →
        daysAgoOf dateRange.«until» now ≤ 7 →
        getSmartCacheTTL dateRange dataType now = 21600) ∧
      (daysAgoOf dateRange.«until» now = 0 →
        getSmartCacheTTL dateRange dataType now = 10800)) := by
  constructor
  · intro h
    rcases h with h | h <;> simp [getSmartCacheTTL, h, CACHE_CONFIG]
  · intro h
    have hne : ¬(dataType = DataType.reviews ∨ dataType = DataType.events) := by
      rcases h with h | h <;> simp [h]
    refine ⟨?_, ?_, ?_⟩
    · intro h1
      simp [getSmartCacheTTL, hne, h1, CACHE_CONFIG]
    · intro h1 h2
      have h3 : ¬(7 : Int) < daysAgoOf dateRange.«until» now := by omega
      simp [getSmartCacheTTL, hne, h1, h3, CACHE_CONFIG]
    · intro h1
      simp [getSmartCacheTTL, hne, h1, CACHE_CONFIG]

/-- Witness for C6 at concrete instants: with until = 0, now ten days later
the reviews category is perpetual and the prs category is historical; now two
days later the prs category gets the 6-hour TTL; now half a day later it gets
the 3-hour TTL. -/
theorem getSmartCacheTTL_spec_witness :
    getSmartCacheTTL ⟨0, 0⟩ DataType.reviews 864000000 = 0 ∧
    getSmartCacheTTL ⟨0, 0⟩ DataType.prs 864000000 = 0 ∧
    getSmartCacheTTL ⟨0, 0⟩ DataType.prs 172800000 = 21600 ∧
    getSmartCacheTTL ⟨0, 0⟩ DataType.prs 43200000 = 10800 :=
  ⟨(getSmartCacheTTL_spec ⟨0, 0⟩ 864000000 DataType.reviews).1 (Or.inl rfl),
   ((getSmartCacheTTL_spec ⟨0, 0⟩ 864000000 DataType.prs).2 (Or.inl rfl)).1
     (by decide),
   (((getSmartCacheTTL_spec ⟨0, 0⟩ 172800000 DataType.prs).2
       (Or.inl rfl)).2).1 (by decide) (by decide),
   (((getSmartCacheTTL_spec ⟨0, 0⟩ 43200000 DataType.prs).2
       (Or.inl rfl)).2).2 (by decide)⟩

/-- C1: set stores expiresAt = now + ttlSeconds for a positive TTL and no
expiration for an omitted or zero TTL, and a get strictly before expiresAt
(and a perpetual get at any instant) returns the stored value — but a get at
or after expiresAt is not a miss while the same UTC day lasts: set writes
expires_at as toISOString text and get compares it byte-wise against
datetime('now')'s space-separated text, where on equal UTC dates 'T' (0x54) >
' ' (0x20) keeps the row selected (see isLive).  Evaluated at the failing
input — set key 1 to 42 at the epoch with a 3-hour TTL — the stored row
expires at 10800000 ms, yet a get at 18000000 ms (05:00 the same UTC day, two
hours past expiry) still returns 42; the miss begins only at the next UTC day
(86400000 ms).  The perpetual and strictly-before parts of the claim hold. -/
theorem same_day_expired_entry_still_served :
    SQLiteCache.set (emptyStore Nat Nat) 0 1 42 (some 10800) =
      Except.ok expiredSameDayStore ∧
    expiredSameDayStore.rows 1 = some ⟨42, true, 0, some 10800000⟩ ∧
    SQLiteCache.get expiredSameDayStore 3600000 1 = Except.ok (some 42) ∧
    (10800000 : Nat) ≤ 18000000 ∧
    SQLiteCache.get expiredSameDayStore 18000000 1 = Except.ok (some 42) ∧
    SQLiteCache.get expiredSameDayStore 86400000 1 = Except.ok none ∧
    SQLiteCache.get perpetualStore 999999999999 1 = Except.ok (some 42) := by
  refine ⟨rfl, by decide, rfl, by decide, rfl, rfl, rfl⟩

/-! Lemmas about getDateIntervals. -/

theorem getDateIntervals_of_lt {s e : Nat} (n : ℕ+) (h : s < e) :
    getDateIntervals s e n =
      ⟨s, min (s + (n : Nat) * 86400000) e⟩ ::
        getDateIntervals (s + (n : Nat) * 86400000) e n := by
  rw [getDateIntervals]
  simp [h]

theorem getDateIntervals_of_ge {s e : Nat} (n : ℕ+) (h : ¬ s < e) :
    getDateIntervals s e n = [] := by
  rw [getDateIntervals]
  simp [h]

theorem getDateIntervals_ne_nil {s e : Nat} (n : ℕ+) (h : s < e) :
    getDateIntervals s e n ≠ [] := by
  rw [getDateIntervals_of_lt n h]
  simp

theorem getDateIntervals_stepPos (n : ℕ+) : 0 < (n : Nat) * 86400000 :=
  Nat.mul_pos n.pos (by norm_num)

theorem getDateIntervals_last (n : ℕ+) (e : Nat) :
    ∀ d s, e - s ≤ d → s < e →
      (getDateIntervals s e n).getLast?.map DateInterval.«until» = some e := by
  intro d
  induction d with
  | zero =>
    intro s hle hlt
    omega
  | succ d ih =>
    intro s hle hlt
    have hstep := getDateIntervals_stepPos n
    rw [getDateIntervals_of_lt n hlt]
    by_cases h2 : s + (n : Nat) * 86400000 < e
    · rw [getDateIntervals_of_lt n h2, List.getLast?_cons_cons,
        ← getDateIntervals_of_lt n h2]
      exact ih (s + (n : Nat) * 86400000) (by omega) h2
    · rw [getDateIntervals_of_ge n h2]
      simp only [List.getLast?_singleton, Option.map_some]
      have : min (s + (n : Nat) * 86400000) e = e :=
        Nat.min_eq_right (Nat.le_of_not_lt h2)
      rw [this]
      rfl

theorem getDateIntervals_chain (n : ℕ+) (e : Nat) :
    ∀ d s, e - s ≤ d →
      List.Chain' (fun a b => a.«until» = b.since) (getDateIntervals s e n) := by
  intro d
  induction d with
  | zero =>
    intro s hle
    have h : ¬ s < e := by omega
    rw [getDateIntervals_of_ge n h]
    exact List.chain'_nil
  | succ d ih =>
    intro s hle
    have hstep := getDateIntervals_stepPos n
    by_cases hlt : s < e
    · rw [getDateIntervals_of_lt n hlt]
      refine List.chain'_cons'.mpr ⟨?_, ih _ (by omega)⟩
      intro y hy
      by_cases h2 : s + (n : Nat) * 86400000 < e
      · rw [getDateIntervals_of_lt n h2] at hy
        simp only [List.head?_cons, Option.mem_def, Option.some.injEq] at hy
        subst hy
        exact Nat.min_eq_left (Nat.le_of_lt h2)
      · rw [getDateIntervals_of_ge n h2] at hy
        simp at hy
    · rw [getDateIntervals_of_ge n hlt]
      exact List.chain'_nil

theorem getDateIntervals_bounds (n : ℕ+) (e : Nat) :
    ∀ d s, e - s ≤ d → ∀ iv ∈ getDateIntervals s e n,
      iv.since < iv.«until» ∧
      iv.«until» - iv.since ≤ (n : Nat) * 86400000 := by
  intro d
  induction d with
  | zero =>
    intro s hle iv hiv
    have h : ¬ s < e := by omega
    rw [getDateIntervals_of_ge n h] at hiv
    simp at hiv
  | succ d ih =>
    intro s hle iv hiv
    have hstep := getDateIntervals_stepPos n
    by_cases hlt : s < e
    · rw [getDateIntervals_of_lt n hlt] at hiv
      rcases List.mem_cons.mp hiv with h | h
      · subst h
        dsimp only
        have h1 : min (s + (n : Nat) * 86400000) e ≤ s + (n : Nat) * 86400000 :=
          Nat.min_le_left _ _
        have h2 : s < min (s + (n : Nat) * 86400000) e :=
          lt_min (by omega) hlt
        exact ⟨h2, by omega⟩
      · exact ih _ (by omega) iv h
    · rw [getDateIntervals_of_ge n hlt] at hiv
      simp at hiv

/-- C7: for every startDate < endDate and every positive interval length,
getDateIntervals returns a list of intervals whose first since is startDate,
whose last until is endDate, which is contiguous (each interval's until equals
the next interval's since — with nonempty intervals this also makes the tiling
non-overlapping and gap-free on the span), and each of whose intervals is
nonempty and spans at most intervalInDays days (86400000 ms per day). -/
theorem getDateIntervals_spec (startDate endDate : Nat)
    (intervalInDays : ℕ+) (h : startDate < endDate) :
    (getDateIntervals startDate endDate intervalInDays).head?.map
        DateInterval.since = some startDate ∧
    (getDateIntervals startDate endDate intervalInDays).getLast?.map
        DateInterval.«until» = some endDate ∧
    List.Chain' (fun a b => a.«until» = b.since)
      (getDateIntervals startDate endDate intervalInDays) ∧
    ∀ iv ∈ getDateIntervals startDate endDate intervalInDays,
      iv.since < iv.«until» ∧
      iv.«until» - iv.since ≤ (intervalInDays : Nat) * 86400000 := by
  refine ⟨?_, ?_, ?_, ?_⟩
  · rw [getDateIntervals_of_lt intervalInDays h]
    rfl
  · exact getDateIntervals_last intervalInDays endDate (endDate - startDate)
      startDate le_rfl h
  · exact getDateIntervals_chain intervalInDays endDate (endDate - startDate)
      startDate le_rfl
  · exact getDateIntervals_bounds intervalInDays endDate (endDate - startDate)
      startDate le_rfl

/-- Witness for C7 on the concrete range from 0 to 1000000000 ms with the
default 5-day interval length. -/
theorem getDateIntervals_spec_witness :
    (getDateIntervals 0 1000000000 5).head?.map DateInterval.since =
      some 0 ∧
    (getDateIntervals 0 1000000000 5).getLast?.map DateInterval.«until» =
      some 1000000000 :=
  ⟨(getDateIntervals_spec 0 1000000000 5 (by decide)).1,
   (getDateIntervals_spec 0 1000000000 5 (by decide)).2.1⟩

/-- C3: a fully successful commits fetch on a cache miss (here one page
containing one commit) returns the aggregated records of all pages, but the
value written back to the cache under the unit's key is the never-populated
theseDatesCommits, i.e. the empty list — not the aggregated records
(src/commits.ts lines 63, 111-112).  A later run's cache check then finds the
truthy empty array and returns it. -/
theorem fetchCommits_writes_empty_cache :
    (fetchCommits emptyCommitsCache 0 [[⟨"c0", 10, 2⟩]] "acme" "widgets" 0
        432000000).1 = [⟨"c0", 10, 2⟩] ∧
    CompatibilityCache.get
        (fetchCommits emptyCommitsCache 0 [[⟨"c0", 10, 2⟩]] "acme" "widgets" 0
            432000000).2.2
        ("acme", "widgets", 0, 432000000) = some [] ∧
    some ([] : List GraphQLCommit) ≠ some [⟨"c0", 10, 2⟩] := by
  refine ⟨rfl, rfl, by simp⟩

/-- Counterexample for C2: the commits fetch (src/commits.ts lines 47-114)
never consults the offline-mode flag — commits.ts does not import
USE_OFFLINE_MODE, and aggregateMetricsByDateRange guards it only behind the
separate SKIP_COMMITS flag (src/index.ts lines 826-831) — so with the cache
empty its unit performs a network request, refuting that in offline mode no
network call is ever attempted. -/
theorem offline_commits_fetch_hits_network :
    (fetchCommits emptyCommitsCache 0 [[⟨"c1", 3, 4⟩]] "acme" "widgets" 0
        432000000).2.1 = 1 ∧ (1 : Nat) ≠ 0 :=
  ⟨rfl, by decide⟩

/-- C2 (amended): when offline mode is on and force-refresh is off, the
pull-request interval loop — and identically the issues and closed-issues
loops it is drifted from — contributes nothing, performs no network call and
leaves an empty fault-free store untouched, for every interval list; and a
review fetch unit missing from the in-memory cache returns the empty
contribution with no network call. -/
theorem offline_mode_cache_or_skip :
    (∀ (now : Nat) (gate : DateInterval → RateStatus)
        (net : DateInterval → List (List RestIssueAndPullRequest))
        (repoOwner : String) (intervals : List DateInterval)
        (s : SQLiteStore PrsKey (List RestIssueAndPullRequest)),
        (∀ k, s.rows k = none) → (∀ k, s.getError k = false) →
        prsGo false true now gate net repoOwner intervals s =
          Except.ok ([], 0, s)) ∧
    (∀ (cache : CompatibilityCache ReviewsKey ReviewsForPullRequest)
        (net : Nat → ReviewsForPullRequest) (now : Nat)
        (repoOwner repoName : String) (prNumber : Nat),
        cache.memoryCache (repoOwner, repoName, prNumber) = none →
        fetchReviewsForPR true cache net now repoOwner repoName prNumber =
          Except.ok (⟨[], []⟩, 0, cache)) := by
  constructor
  · intro now gate net repoOwner intervals s hrows hge
    induction intervals with
    | nil => simp [prsGo]
    | cons iv rest ih =>
      simp [prsGo, SQLiteCache.get, hrows, hge, prsInterval, ih, Except.bind]
  · intro cache net now repoOwner repoName prNumber h
    simp [fetchReviewsForPR, CompatibilityCache.get, h]

/-- Witness for C2's amended theorem on a concrete interval and unit. -/
theorem offline_mode_cache_or_skip_witness :
    prsGo false true 0 (fun _ => RateStatus.allowed) (fun _ => [[]]) "acme"
        [⟨0, 432000000⟩] (emptyStore PrsKey (List RestIssueAndPullRequest)) =
      Except.ok ([], 0, emptyStore PrsKey (List RestIssueAndPullRequest)) ∧
    fetchReviewsForPR true emptyReviewsCache (fun _ => ⟨[], []⟩) 0 "acme"
        "widgets" 1 = Except.ok (⟨[], []⟩, 0, emptyReviewsCache) :=
  ⟨offline_mode_cache_or_skip.1 0 (fun _ => RateStatus.allowed)
     (fun _ => [[]]) "acme" [⟨0, 432000000⟩]
     (emptyStore PrsKey (List RestIssueAndPullRequest)) (fun _ => rfl)
     (fun _ => rfl),
   offline_mode_cache_or_skip.2 emptyReviewsCache (fun _ => ⟨[], []⟩) 0 "acme"
     "widgets" 1 rfl⟩

/-- Counterexample for C4: a perpetual entry persisted to the durable store by
a previous process run is live there, yet the commits fetch of the current run
— whose synchronous cache read (src/cache.ts lines 224-227) consults only the
in-memory mirror, which a fresh process starts empty — performs a network call
and returns the freshly fetched records instead of the cached value. -/
theorem durable_only_entry_not_served :
    SQLiteCache.get durableOnlyCache.sqliteCache 1000
        ("acme", "widgets", 0, 432000000) =
      Except.ok (some [⟨"cached", 5, 6⟩]) ∧
    (fetchCommits durableOnlyCache 1000 [[⟨"fresh", 1, 1⟩]] "acme" "widgets" 0
        432000000).2.1 = 1 ∧
    (fetchCommits durableOnlyCache 1000 [[⟨"fresh", 1, 1⟩]] "acme" "widgets" 0
        432000000).1 = [⟨"fresh", 1, 1⟩] ∧
    ([⟨"fresh", 1, 1⟩] : List GraphQLCommit) ≠ [⟨"cached", 5, 6⟩] := by
  refine ⟨rfl, rfl, rfl, by simp⟩

/-- C4 (amended): the commits fetch returns the cached value with no network
call exactly when the entry is reachable by its synchronous cache read, i.e.
present in the in-memory mirror because it was written during the current run;
force-refresh is not consulted by this fetch at all. -/
theorem memory_mirror_entry_served
    (cache : CompatibilityCache CommitsKey (List GraphQLCommit)) (now : Nat)
    (pages : List (List GraphQLCommit)) (repoOwner repository : String)
    (since untilDate : Nat) (v : List GraphQLCommit)
    (h : cache.memoryCache (repoOwner, repository, since, untilDate) = some v) :
    fetchCommits cache now pages repoOwner repository since untilDate =
      (v, 0, cache) := by
  simp [fetchCommits, CompatibilityCache.get, h]

/-- Witness for C4's amended theorem: an entry written to the mirror during
the current run is served without a network call. -/
theorem memory_mirror_entry_served_witness :
    fetchCommits memoryHitCache 0 [] "acme" "widgets" 0 432000000 =
      ([⟨"m", 1, 1⟩], 0, memoryHitCache) :=
  memory_mirror_entry_served memoryHitCache 0 [] "acme" "widgets" 0 432000000
    [⟨"m", 1, 1⟩] rfl

/-- Counterexample for C5: when the storage engine fails the get of the first
interval's key, the whole pull-request fetch run rejects — SQLiteCache.get
rejects on an engine error (src/cache.ts lines 102-107) and the unguarded
await at src/index.ts line 144 propagates it — rather than treating the value
as absent. -/
theorem get_error_aborts_fetch_run :
    prsGo false false 0 (fun _ => RateStatus.allowed) (fun _ => [[]]) "acme"
        [⟨0, 432000000⟩] prsGetErrorStore = Except.error () := rfl

/-- C5 (amended): a storage engine error during a cache get is logged and the
promise rejected, and the rejection propagates out of the calling fetch run
(whose interval loop does not catch it); only a JSON parse failure of the
stored text is treated as a miss. -/
theorem get_error_propagates_parse_failure_is_miss :
    (∀ (s : SQLiteStore PrsKey (List RestIssueAndPullRequest))
        (offlineMode : Bool) (now : Nat) (gate : DateInterval → RateStatus)
        (net : DateInterval → List (List RestIssueAndPullRequest))
        (repoOwner : String) (iv : DateInterval) (rest : List DateInterval),
        s.getError (repoOwner, iv.since, iv.«until») = true →
        prsGo false offlineMode now gate net repoOwner (iv :: rest) s =
          Except.error ()) ∧
    (∀ (K V : Type) (s : SQLiteStore K V) (now : Nat) (k : K)
        (r : CacheRow V),
        s.getError k = false → s.rows k = some r → r.parseOk = false →
        SQLiteCache.get s now k = Except.ok none) := by
  constructor
  · intro s offlineMode now gate net repoOwner iv rest h
    simp [prsGo, SQLiteCache.get, h, Except.bind]
  · intro K V s now k r hge hrow hpk
    simp [SQLiteCache.get, hge, hrow, hpk]

/-- Witness for C5's amended theorem: a concrete failing get aborts a
concrete one-interval run, and a concrete unparsable row reads as a miss. -/
theorem get_error_propagates_parse_failure_is_miss_witness :
    prsGo false false 7 (fun _ => RateStatus.allowed) (fun _ => []) "o"
        [⟨0, 1⟩] prsGetErrorStore = Except.error () ∧
    SQLiteCache.get parseFailStore 0 0 = Except.ok none :=
  ⟨get_error_propagates_parse_failure_is_miss.1 prsGetErrorStore false 7
     (fun _ => RateStatus.allowed) (fun _ => []) "o" ⟨0, 1⟩ [] rfl,
   get_error_propagates_parse_failure_is_miss.2 Nat Nat parseFailStore 0 0
     ⟨7, false, 0, none⟩ rfl rfl rfl⟩

/-- C8: evaluating the review-processing body of aggregateMetricsByDateRange
(src/index.ts lines 871-910) on a pull request authored by alice carrying one
CHANGES_REQUESTED review written by bob: the rejection is recorded under alice
— the pull request's author (line 889) — and not under bob, the reviewer,
whose review and score counters are the ones incremented.  (The drifted copy
of the same function in src/unnamed/part_006 increments the reviewer
instead.) -/
theorem changes_requested_attributed_to_author :
    (processPullRequest (fun _ => emptyMetrics) ⟨some "alice", "widgets", 7⟩
        ⟨[⟨some "bob", "CHANGES_REQUESTED"⟩], []⟩ "alice").rejections = 1 ∧
    (processPullRequest (fun _ => emptyMetrics) ⟨some "alice", "widgets", 7⟩
        ⟨[⟨some "bob", "CHANGES_REQUESTED"⟩], []⟩ "bob").rejections = 0 ∧
    (processPullRequest (fun _ => emptyMetrics) ⟨some "alice", "widgets", 7⟩
        ⟨[⟨some "bob", "CHANGES_REQUESTED"⟩], []⟩ "bob").reviews = 1 ∧
    ("alice" : String) ≠ "bob" := by
  refine ⟨by decide, by decide, by decide, by decide⟩

/-! Lemmas about migration. -/

theorem set_ok_of_not_setError {K V : Type} [DecidableEq K]
    (s : SQLiteStore K V) (now : Nat) (k : K) (v : V) (ttl : Option Nat)
    (h : s.setError k = false) :
    SQLiteCache.set s now k v ttl =
      Except.ok
        { s with
          rows := fun k' =>
            if k' = k then some ⟨v, true, now, expiresAtOf now ttl⟩
            else s.rows k' } := by
  simp [SQLiteCache.set, h]

theorem set_preserves_flags {K V : Type} [DecidableEq K]
    {s s' : SQLiteStore K V} {now : Nat} {k : K} {v : V} {ttl : Option Nat}
    (h : SQLiteCache.set s now k v ttl = Except.ok s') :
    s'.getError = s.getError ∧ s'.setError = s.setError ∧
    ∀ k', k' ≠ k → s'.rows k' = s.rows k' := by
  unfold SQLiteCache.set at h
  by_cases hse : s.setError k = true
  · simp [hse] at h
  · simp only [Bool.not_eq_true] at hse
    simp only [hse, Bool.false_eq_true, if_false, Except.ok.injEq] at h
    subst h
    exact ⟨rfl, rfl, fun k' hk => by simp [hk]⟩

theorem migrateGo_counts {K V : Type} [DecidableEq K] (now : Nat) :
    ∀ (data : List (K × V)) (s : SQLiteStore K V),
      (∀ k, s.setError k = false) →
      (migrateGo now data s).1 = data.length ∧
      (migrateGo now data s).2.1 = 0 := by
  intro data
  induction data with
  | nil => intro s _; simp [migrateGo]
  | cons kv rest ih =>
    intro s hs
    obtain ⟨k, v⟩ := kv
    rw [migrateGo, set_ok_of_not_setError s now k v none (hs k)]
    have hs' :
        ∀ k',
          (SQLiteStore.mk
            (fun k' =>
              if k' = k then some ⟨v, true, now, expiresAtOf now none⟩
              else s.rows k')
            s.getError s.setError).setError k' = false :=
      fun k' => hs k'
    obtain ⟨h1, h2⟩ := ih _ hs'
    simp only [List.length_cons]
    constructor
    · simp [h1]
    · simp [h2]

theorem migrateGo_getError {K V : Type} [DecidableEq K] (now : Nat) :
    ∀ (data : List (K × V)) (s : SQLiteStore K V),
      ((migrateGo now data s).2.2).getError = s.getError := by
  intro data
  induction data with
  | nil => intro s; simp [migrateGo]
  | cons kv rest ih =>
    intro s
    obtain ⟨k, v⟩ := kv
    cases hset : SQLiteCache.set s now k v none with
    | ok s' =>
      have hflags := set_preserves_flags hset
      rw [migrateGo, hset]
      simp only
      rw [ih s']
      exact hflags.1
    | error e =>
      rw [migrateGo, hset]
      simp only
      exact ih s

theorem migrateGo_rows_not_mem {K V : Type} [DecidableEq K] (now : Nat) :
    ∀ (data : List (K × V)) (s : SQLiteStore K V) (k : K),
      k ∉ data.map Prod.fst →
      ((migrateGo now data s).2.2).rows k = s.rows k := by
  intro data
  induction data with
  | nil => intro s k _; simp [migrateGo]
  | cons kv rest ih =>
    intro s k h
    obtain ⟨k0, v0⟩ := kv
    simp only [List.map_cons, List.mem_cons, not_or] at h
    obtain ⟨hne, hmem⟩ := h
    cases hset : SQLiteCache.set s now k0 v0 none with
    | ok s' =>
      rw [migrateGo, hset]
      simp only
      rw [ih s' k hmem]
      exact (set_preserves_flags hset).2.2 k hne
    | error e =>
      rw [migrateGo, hset]
      simp only
      exact ih s k hmem

theorem migrateGo_rows_mem {K V : Type} [DecidableEq K] (now : Nat) :
    ∀ (data : List (K × V)) (s : SQLiteStore K V),
      (∀ k, s.setError k = false) → (data.map Prod.fst).Nodup →
      ∀ kv ∈ data,
        ((migrateGo now data s).2.2).rows kv.1 =
          some ⟨kv.2, true, now, none⟩ := by
  intro data
  induction data with
  | nil => intro s _ _ kv hkv; simp at hkv
  | cons kv0 rest ih =>
    intro s hs hnodup kv hkv
    obtain ⟨k0, v0⟩ := kv0
    simp only [List.map_cons, List.nodup_cons] at hnodup
    obtain ⟨hk0, hnodup'⟩ := hnodup
    rw [migrateGo, set_ok_of_not_setError s now k0 v0 none (hs k0)]
    simp only
    rcases List.mem_cons.mp hkv with h | h
    · subst h
      rw [migrateGo_rows_not_mem now rest _ k0 hk0]
      simp [expiresAtOf]
    · apply ih
      · exact fun k' => hs k'
      · exact hnodup'
      · exact h

/-- C9: migrating a legacy flat-file dataset of N pairwise-distinct keys into
a working store reports keysTransferred = N, errors = 0 and success, and a
subsequent get of each migrated key at any instant returns the source value
(migrated entries carry no TTL, hence never expire); a missing source file is
success with 0 keys transferred and the store untouched. -/
theorem migrateSingleFile_spec {K V : Type} [DecidableEq K] (now now' : Nat)
    (data : List (K × V)) (s : SQLiteStore K V)
    (hset : ∀ k, s.setError k = false) (hget : ∀ k, s.getError k = false)
    (hnodup : (data.map Prod.fst).Nodup) :
    (migrateSingleFile now (some data) s).1 = ⟨data.length, 0, true⟩ ∧
    (∀ kv ∈ data,
      SQLiteCache.get (migrateSingleFile now (some data) s).2 now' kv.1 =
        Except.ok (some kv.2)) ∧
    migrateSingleFile now (none : Option (List (K × V))) s =
      (⟨0, 0, true⟩, s) := by
  obtain ⟨h1, h2⟩ := migrateGo_counts now data s hset
  refine ⟨?_, ?_, rfl⟩
  · simp [migrateSingleFile, h1, h2]
  · intro kv hkv
    have hr := migrateGo_rows_mem now data s hset hnodup kv hkv
    have hg := migrateGo_getError now data s
    simp only [migrateSingleFile]
    unfold SQLiteCache.get
    rw [hg, hget kv.1, hr]
    simp [isLive]

/-- Witness for C9: migrating the two-key legacy object a ↦ 1, b ↦ 2 into the
empty working store transfers 2 keys with no errors, and a much later get of
key a returns 1. -/
theorem migrateSingleFile_spec_witness :
    (migrateSingleFile 5 (some [("a", 1), ("b", 2)])
        (emptyStore String Nat)).1 = ⟨2, 0, true⟩ ∧
    SQLiteCache.get
        (migrateSingleFile 5 (some [("a", 1), ("b", 2)])
          (emptyStore String Nat)).2 999999 "a" = Except.ok (some 1) :=
  ⟨(migrateSingleFile_spec 5 999999 [("a", 1), ("b", 2)]
      (emptyStore String Nat) (fun _ => rfl) (fun _ => rfl) (by decide)).1,
   (migrateSingleFile_spec 5 999999 [("a", 1), ("b", 2)]
      (emptyStore String Nat) (fun _ => rfl) (fun _ => rfl) (by decide)).2.1
     ("a", 1) (by decide)⟩

end GithubMetrics
